import Mathlib

/-!
Verification of the schema-to-query compiler and the AllowedProperties
match node: a shallow embedding of
`src/mongo/db/matcher/schema/expression_internal_schema_allowed_properties.{h,cpp}`
and `src/mongo/db/matcher/schema/json_schema_parser.cpp`, with theorems
settling the specified properties against that embedding.
-/

set_option maxHeartbeats 1000000

namespace Mongo

/-! ## Data model

The document model follows the spec (section 3): values carry a type tag
drawn from a fixed universe; `Number` subsumes the integer and double
subtypes ("Numeric is a predicate over tags, not a single tag" is carried
by the `allNumbers` flag of `TypeSpec` below).  `eoo` is the
default-constructed, unset tag of the underlying library. -/

inductive BSONType where
  | eoo
  | numberT
  | stringT
  | objectT
  | arrayT
  | boolT
  | nullT
  | regexT
deriving DecidableEq, Repr

/-- A BSON value: a tagged value of the document model.  An object is an
ordered sequence of (field-name, value) pairs; numbers are rationals
(the merged `Number` tag of the spec's data model). -/
inductive BsonValue where
  | num (q : Rat)
  | str (s : String)
  | obj (fields : List (String × BsonValue))
  | arr (elems : List BsonValue)
  | boolV (b : Bool)
  | null
  | regexV (pattern : String) (flags : String)

/-- The type tag of a value. -/
def BsonValue.tag : BsonValue → BSONType
  | .num _ => .numberT
  | .str _ => .stringT
  | .obj _ => .objectT
  | .arr _ => .arrayT
  | .boolV _ => .boolT
  | .null => .nullT
  | .regexV _ _ => .regexT

/-- `BSONElement::isNumber()`. -/
def BsonValue.isNumber : BsonValue → Bool
  | .num _ => true
  | _ => false

/-- `BSONElement::isBoolean()`. -/
def BsonValue.isBoolean : BsonValue → Bool
  | .boolV _ => true
  | _ => false

/-- `isNumericBSONType`: in the merged data model the numeric subtypes are
one tag. -/
def isNumericBSONType (t : BSONType) : Bool := t == .numberT

/-- Mirrors `TypeMatchExpression::Type`: either the predicate "any
numeric" (`allNumbers`) or a concrete tag; a default-constructed spec has
`allNumbers = false` and the unset tag. -/
structure TypeSpec where
  allNumbers : Bool := false
  bsonType : BSONType := .eoo
deriving DecidableEq, Repr

/-- Whether a value satisfies a type spec (`TypeMatchExpression`
semantics on a single element). -/
def tagMatches (spec : TypeSpec) (v : BsonValue) : Bool :=
  if spec.allNumbers then v.tag == .numberT else v.tag == spec.bsonType

/-! ## Regexes

The source's `Regex` struct holds a compiled `pcrecpp::RE` together with
its original source text; the compiled regex is a function of the source
text, so the embedding keeps only `serializedRegex`.  Partial matching is
modelled from the spec ("partial (substring-anchored by the pattern
itself), not full-string"): a literal pattern matches anywhere in the
name, and a leading `^` anchors it to the front. -/

def isPre : List Char → List Char → Bool
  | [], _ => true
  | _ :: _, [] => false
  | a :: as, b :: bs => a == b && isPre as bs

def hasSub (needle : List Char) : List Char → Bool
  | [] => isPre needle []
  | c :: rest => isPre needle (c :: rest) || hasSub needle rest

structure Regex where
  serializedRegex : String
deriving DecidableEq, Repr

/-- `Regex::clone()`: duplicate the regex from its serialized form. -/
def Regex.clone (r : Regex) : Regex := { serializedRegex := r.serializedRegex }

/-- Modelled from the spec: `pcrecpp::RE::PartialMatch` for the literal
patterns (with optional leading anchor) this dialect exercises. -/
def Regex.partialMatch (r : Regex) (s : String) : Bool :=
  match r.serializedRegex.toList with
  | '^' :: rest => isPre rest s.toList
  | pat => hasSub pat s.toList

/-! ## Sub-expressions

Modelled from the spec: the sub-expressions held by an AllowedProperties
node belong to the external match-expression library (spec sections 1 and
6: the library is an external collaborator consumed through a polymorphic
evaluation surface).  The forms this repository's tests exercise are
placeholder-rooted type checks (`{i: {$type: <alias>}}`) and the trivial
expressions; each supports single-element evaluation, structural
equivalence, cloning and serialization. -/

inductive SubExpr where
  | typeCheck (path : String) (spec : TypeSpec)
  | alwaysT
  | alwaysF
deriving DecidableEq, Repr

/-- `MatchExpression::matchesSingleElement` of a sub-expression: a type
check tests the element's tag regardless of path. -/
def SubExpr.evalSingle : SubExpr → BsonValue → Bool
  | .typeCheck _ spec, v => tagMatches spec v
  | .alwaysT, _ => true
  | .alwaysF, _ => false

/-- `MatchExpression::equivalent` on sub-expressions: structural. -/
def SubExpr.equiv (a b : SubExpr) : Bool := decide (a = b)

/-- `MatchExpression::shallowClone` on sub-expressions rebuilds an
identical structure. -/
def SubExpr.shallowClone (e : SubExpr) : SubExpr := e

/-- The placeholder a serialized sub-expression exhibits: its top-level
field name (the external `ExpressionWithPlaceholder` parser recovers the
placeholder from the expression's field name). -/
def SubExpr.placeholderOf : SubExpr → String
  | .typeCheck p _ => p
  | _ => ""

/-! ## The AllowedProperties node

`InternalSchemaAllowedPropertiesMatchExpression` (header lines 39-117):
its state is the literal-name set, the ordered pattern list, the
`otherwise` sub-expression or boolean (`_otherwise` is a possibly-null
owning pointer beside `_boolOtherwise`, whose constructor default is
`true`), and the name placeholder. -/

/-- One `PatternElem`: a regex paired with an
`ExpressionWithPlaceholder` (placeholder name plus filter). -/
structure PatternSchema where
  regex : Regex
  placeholder : String
  filter : SubExpr
deriving DecidableEq, Repr

structure AllowedProperties where
  properties : List String
  patternProperties : List PatternSchema
  otherwise : Option (String × SubExpr)
  boolOtherwise : Bool
  namePlaceholder : String
deriving Repr

/-- The pattern loop of `_matchesObject` (cpp lines 83-92): walk
`patternProperties` in order; a partial regex match on the field name
clears `checkOtherwise` and requires the pattern's filter to accept the
element; a failing filter returns `false` from the whole match (`none`
models that early return); otherwise the final `checkOtherwise` flag is
produced. -/
def runPatterns (name : String) (v : BsonValue) :
    List PatternSchema → Bool → Option Bool
  | [], co => some co
  | p :: rest, co =>
    if p.regex.partialMatch name then
      if p.filter.evalSingle v then runPatterns name v rest false else none
    else runPatterns name v rest co

/-- The body of `_matchesObject`'s field loop for one field: initialize
`checkOtherwise` from literal membership (cpp lines 77-81), run the
pattern loop, and consult `otherwise` only when the flag survived (cpp
lines 94-102). -/
def AllowedProperties.fieldOk (n : AllowedProperties) (f : String × BsonValue) : Bool :=
  match runPatterns f.1 f.2 n.patternProperties (!(n.properties.contains f.1)) with
  | none => false
  | some co =>
    if co then
      match n.otherwise with
      | some (_, g) => g.evalSingle f.2
      | none => n.boolOtherwise
    else true

/-- `_matchesObject` (cpp lines 75-106): every field must pass; the first
failure returns `false`. -/
def AllowedProperties.matchesObject (n : AllowedProperties) :
    List (String × BsonValue) → Bool
  | [] => true
  | f :: rest => if n.fieldOk f then n.matchesObject rest else false

/-- `matchesSingleElement` (cpp lines 108-115): a non-Object element is
rejected before the per-field algorithm. -/
def AllowedProperties.matchesSingleElement (n : AllowedProperties) (v : BsonValue) : Bool :=
  match v with
  | .obj fields => n.matchesObject fields
  | _ => false

/-- `matches` (header lines 93-95): the whole-document entry point
applies `_matchesObject` to the document directly, with no object-type
guard. -/
def AllowedProperties.matchesDoc (n : AllowedProperties)
    (doc : List (String × BsonValue)) : Bool :=
  n.matchesObject doc

/-- `shallowClone` (cpp lines 41-73): regexes are duplicated from their
serialized form and sub-expressions recursively cloned; when `_otherwise`
holds an expression the clone is built by the expression `init`, which
leaves the fresh node's `_boolOtherwise` at its constructor default
`true`; otherwise the boolean `init` copies `_boolOtherwise`. -/
def AllowedProperties.shallowClone (n : AllowedProperties) : AllowedProperties :=
  let clonedExpressions := n.patternProperties.map fun e =>
    { regex := e.regex.clone, placeholder := e.placeholder,
      filter := e.filter.shallowClone }
  match n.otherwise with
  | some (ph, f) =>
    { properties := n.properties, patternProperties := clonedExpressions,
      otherwise := some (ph, f.shallowClone), boolOtherwise := true,
      namePlaceholder := n.namePlaceholder }
  | none =>
    { properties := n.properties, patternProperties := clonedExpressions,
      otherwise := none, boolOtherwise := n.boolOtherwise,
      namePlaceholder := n.namePlaceholder }

/-- `stdx::unordered_set` equality: equal membership. -/
def setEq (a b : List String) : Bool :=
  a.all b.contains && b.all a.contains

/-- The pairwise predicate of the `std::is_permutation` call (cpp lines
196-199): sub-expression equivalence and equal serialized regex text. -/
def patternEquiv (e1 e2 : PatternSchema) : Bool :=
  e1.filter.equiv e2.filter &&
    e1.regex.serializedRegex == e2.regex.serializedRegex

/-- `std::is_permutation` under an equivalence predicate: equal lengths,
and at every element the predicate's match count agrees across the two
ranges. -/
def isPermutationBy (p : α → α → Bool) (l1 l2 : List α) : Bool :=
  l1.length == l2.length &&
    l1.all fun x => l1.countP (p x) == l2.countP (p x)

/-- `equivalent` (cpp lines 166-200).  The comparison never inspects the
kinds of the two `otherwise` members: when `_otherwise` is an expression
the other node's `_otherwise` is dereferenced unconditionally (line 179),
which is a null dereference when the other node stores a boolean —
modelled as `none`; when `_otherwise` is null the booleans are compared
(line 183) even if the other node stores an expression.  Every defined
outcome is `some b`. -/
def AllowedProperties.equivalent (a b : AllowedProperties) : Option Bool :=
  if !setEq a.properties b.properties then some false
  else
    let cont : Option Bool :=
      if a.namePlaceholder ≠ b.namePlaceholder then some false
      else
        some (isPermutationBy patternEquiv a.patternProperties b.patternProperties)
    match a.otherwise with
    | some (ph, f) =>
      match b.otherwise with
      | none => none
      | some (ph2, f2) =>
        if !f.equiv f2 || ph ≠ ph2 then some false else cont
    | none =>
      if a.boolOtherwise ≠ b.boolOtherwise then some false else cont

/-! ## Serialization of the AllowedProperties node

`serialize` (cpp lines 133-164): the canonical object under the
`$_internalSchemaAllowedProperties` key.  Sub-expression serialization
belongs to the external library; it is modelled from the spec
(`SubExpr.serialize` below). -/

/-- Modelled from the spec: the printable alias of a type spec, as the
external library's alias table names it ("number" for the any-numeric
predicate). -/
def BSONType.aliasName : BSONType → String
  | .eoo => "eoo"
  | .numberT => "double"
  | .stringT => "string"
  | .objectT => "object"
  | .arrayT => "array"
  | .boolT => "bool"
  | .nullT => "null"
  | .regexT => "regex"

def TypeSpec.aliasName (s : TypeSpec) : String :=
  if s.allNumbers then "number" else s.bsonType.aliasName

/-- Modelled from the spec: serialization of a sub-expression by the
external library (`{<placeholder>: {$type: <alias>}}` for a type check). -/
def SubExpr.serialize : SubExpr → BsonValue
  | .typeCheck p spec => .obj [(p, .obj [("$type", .str spec.aliasName)])]
  | .alwaysT => .obj [("$alwaysTrue", .num 1)]
  | .alwaysF => .obj [("$alwaysFalse", .num 1)]

/-- `serialize` (cpp lines 133-164), producing the document
`{$_internalSchemaAllowedProperties: {properties, namePlaceholder,
patternProperties, otherwise}}`; each pattern entry carries the regex's
original source text (with empty flags) and the serialized filter, and
`otherwise` is the serialized sub-expression or the boolean. -/
def AllowedProperties.serialize (n : AllowedProperties) : List (String × BsonValue) :=
  [("$_internalSchemaAllowedProperties", .obj
    [("properties", .arr (n.properties.map BsonValue.str)),
     ("namePlaceholder", .str n.namePlaceholder),
     ("patternProperties", .arr (n.patternProperties.map fun e =>
       .obj [("regex", .regexV e.regex.serializedRegex ""),
             ("expression", e.filter.serialize)])),
     ("otherwise", match n.otherwise with
       | some (_, f) => f.serialize
       | none => .boolV n.boolOtherwise)])]

/-! ## The match-expression tree

The node variants of the match language the schema compiler emits (spec
section 3).  Evaluation against a document is the external library's job
and is modelled from the spec: path lookup is direct field lookup, the
Xor node means "exactly one child matches", and an ObjectMatch fails when
the path is absent or not an object. -/

inductive MatchExpr where
  | alwaysTrue
  | alwaysFalse
  | andE (children : List MatchExpr)
  | orE (children : List MatchExpr)
  | xorE (children : List MatchExpr)
  | notE (child : MatchExpr)
  | existsE (path : String)
  | typeE (path : String) (spec : TypeSpec)
  | ltE (path : String) (value : BsonValue)
  | lteE (path : String) (value : BsonValue)
  | gtE (path : String) (value : BsonValue)
  | gteE (path : String) (value : BsonValue)
  | regexE (path : String) (pattern : String) (flags : String)
  | maxLengthE (path : String) (len : Int)
  | minLengthE (path : String) (len : Int)
  | objectMatch (path : String) (inner : MatchExpr)

/-- `MatchExpression::path()`: the anchored path of a leaf or
ObjectMatch node; logical nodes carry no path. -/
def MatchExpr.path : MatchExpr → String
  | .existsE p => p
  | .typeE p _ => p
  | .ltE p _ => p
  | .lteE p _ => p
  | .gtE p _ => p
  | .gteE p _ => p
  | .regexE p _ _ => p
  | .maxLengthE p _ => p
  | .minLengthE p _ => p
  | .objectMatch p _ => p
  | _ => ""

/-- Modelled from the spec: value comparison of the external library,
on the orderable values this dialect compares. -/
def bsonLt : BsonValue → BsonValue → Bool
  | .num a, .num b => a < b
  | .str a, .str b => a < b
  | _, _ => false

def bsonLte : BsonValue → BsonValue → Bool
  | .num a, .num b => a ≤ b
  | .str a, .str b => a ≤ b
  | _, _ => false

/-- Field lookup for evaluation: the first field with the given name. -/
def lookupField (doc : List (String × BsonValue)) (p : String) : Option BsonValue :=
  match doc with
  | [] => none
  | (k, v) :: rest => if k = p then some v else lookupField rest p

mutual

/-- Modelled from the spec: the polymorphic evaluation surface of the
external match-expression library (spec section 6), matching a whole
document. -/
def MatchExpr.eval : MatchExpr → List (String × BsonValue) → Bool
  | .alwaysTrue, _ => true
  | .alwaysFalse, _ => false
  | .andE cs, doc => evalAll cs doc
  | .orE cs, doc => evalAny cs doc
  | .xorE cs, doc => evalCount cs doc == 1
  | .notE c, doc => !c.eval doc
  | .existsE p, doc => (lookupField doc p).isSome
  | .typeE p spec, doc =>
    match lookupField doc p with
    | some v => tagMatches spec v
    | none => false
  | .ltE p val, doc =>
    match lookupField doc p with
    | some v => bsonLt v val
    | none => false
  | .lteE p val, doc =>
    match lookupField doc p with
    | some v => bsonLte v val
    | none => false
  | .gtE p val, doc =>
    match lookupField doc p with
    | some v => bsonLt val v
    | none => false
  | .gteE p val, doc =>
    match lookupField doc p with
    | some v => bsonLte val v
    | none => false
  | .regexE p pat _, doc =>
    match lookupField doc p with
    | some (.str s) => Regex.partialMatch { serializedRegex := pat } s
    | _ => false
  | .maxLengthE p len, doc =>
    match lookupField doc p with
    | some (.str s) => decide ((s.length : Int) ≤ len)
    | _ => false
  | .minLengthE p len, doc =>
    match lookupField doc p with
    | some (.str s) => decide (len ≤ (s.length : Int))
    | _ => false
  | .objectMatch p inner, doc =>
    match lookupField doc p with
    | some (.obj fields) => inner.eval fields
    | _ => false

def evalAll : List MatchExpr → List (String × BsonValue) → Bool
  | [], _ => true
  | c :: cs, doc => c.eval doc && evalAll cs doc

def evalAny : List MatchExpr → List (String × BsonValue) → Bool
  | [], _ => false
  | c :: cs, doc => c.eval doc || evalAny cs doc

def evalCount : List MatchExpr → List (String × BsonValue) → Nat
  | [], _ => 0
  | c :: cs, doc => (if c.eval doc then 1 else 0) + evalCount cs doc

end

/-! ## The schema compiler

`json_schema_parser.cpp`.  Errors keep the kind of the `Status` the
source returns (the message text is not modelled). -/

inductive ParseError where
  | typeMismatch
  | badValue
  | failedToParse
deriving DecidableEq, Repr

/-- Modelled from the spec: the external alias resolver
(`MatchExpressionParser::parseTypeFromAlias`) mapping type-name strings
to a `TypeSpec`; "number" resolves to the any-numeric predicate (whose
concrete tag member stays unset), every numeric subtype alias to the
merged `Number` tag. -/
def resolveTypeAlias (s : String) : Except ParseError TypeSpec :=
  if s = "number" then .ok { allNumbers := true, bsonType := .eoo }
  else if s = "double" then .ok { bsonType := .numberT }
  else if s = "int" then .ok { bsonType := .numberT }
  else if s = "long" then .ok { bsonType := .numberT }
  else if s = "decimal" then .ok { bsonType := .numberT }
  else if s = "string" then .ok { bsonType := .stringT }
  else if s = "object" then .ok { bsonType := .objectT }
  else if s = "array" then .ok { bsonType := .arrayT }
  else if s = "bool" then .ok { bsonType := .boolT }
  else if s = "null" then .ok { bsonType := .nullT }
  else if s = "regex" then .ok { bsonType := .regexT }
  else .error .badValue

/-- Modelled from the spec: the external integer-parser
(`MatchExpressionParser::parseIntegerElementToNonNegativeLong`), which
rejects fractional or negative numbers. -/
def parseIntegerElementToNonNegativeLong : BsonValue → Except ParseError Int
  | .num q => if q.den = 1 then (if q < 0 then .error .badValue else .ok q.num)
              else .error .badValue
  | _ => .error .badValue

/-- `parseType` (parser lines 143-155): absent keyword yields no stated
type; a non-string element is a `TypeMismatch`; otherwise the alias
resolver decides. -/
def parseType (typeElt : Option BsonValue) : Except ParseError (Option TypeSpec) :=
  match typeElt with
  | none => .ok none
  | some (.str s) => (resolveTypeAlias s).map some
  | some _ => .error .typeMismatch

/-- `makeRestriction` (parser lines 76-111): vacuous (`AlwaysTrue`) when
the stated type is incompatible with the restriction type, else
`Or(Not(Type(path, restrictionType)), restrictionExpr)` with the path
taken from the restriction expression. -/
def makeRestriction (restrictionType : TypeSpec) (restrictionExpr : MatchExpr)
    (statedType : Option TypeSpec) : MatchExpr :=
  let emitted : MatchExpr :=
    .orE [.notE (.typeE restrictionExpr.path restrictionType), restrictionExpr]
  match statedType with
  | some st =>
    let bothNumeric := restrictionType.allNumbers &&
      (st.allNumbers || isNumericBSONType st.bsonType)
    let bsonTypesMatch := restrictionType.bsonType == st.bsonType
    if !bothNumeric && !bsonTypesMatch then .alwaysTrue else emitted
  | none => emitted

/-- `makeTypeRestriction` (parser lines 127-141):
`Or(Not(Exists(path)), Type(path, spec))`. -/
def makeTypeRestriction (path : String) (spec : TypeSpec) : MatchExpr :=
  .orE [.notE (.existsE path), .typeE path spec]

/-- `parseMaximum` (parser lines 157-186). -/
def parseMaximum (path : String) (maximum : BsonValue) (typeExpr : Option TypeSpec)
    (isExclusiveMaximum : Bool) : Except ParseError MatchExpr :=
  if !maximum.isNumber then .error .typeMismatch
  else if path = "" then .ok .alwaysTrue
  else
    let expr := if isExclusiveMaximum then MatchExpr.ltE path maximum
                else MatchExpr.lteE path maximum
    .ok (makeRestriction { allNumbers := true } expr typeExpr)

/-- `parseMinimum` (parser lines 188-217). -/
def parseMinimum (path : String) (minimum : BsonValue) (typeExpr : Option TypeSpec)
    (isExclusiveMinimum : Bool) : Except ParseError MatchExpr :=
  if !minimum.isNumber then .error .typeMismatch
  else if path = "" then .ok .alwaysTrue
  else
    let expr := if isExclusiveMinimum then MatchExpr.gtE path minimum
                else MatchExpr.gteE path minimum
    .ok (makeRestriction { allNumbers := true } expr typeExpr)

/-- `parseStrLength` (parser lines 219-247); the template parameter `T`
is the node constructor (`maxLengthE` or `minLengthE`). -/
def parseStrLength (path : String) (strLength : BsonValue) (typeExpr : Option TypeSpec)
    (mk : String → Int → MatchExpr) : Except ParseError MatchExpr :=
  if !strLength.isNumber then .error .typeMismatch
  else
    match parseIntegerElementToNonNegativeLong strLength with
    | .error e => .error e
    | .ok len =>
      if path = "" then .ok .alwaysTrue
      else .ok (makeRestriction { bsonType := .stringT } (mk path len) typeExpr)

/-- `parsePattern` (parser lines 249-271): flags are always empty. -/
def parsePattern (path : String) (pattern : BsonValue) (typeExpr : Option TypeSpec) :
    Except ParseError MatchExpr :=
  match pattern with
  | .str s =>
    if path = "" then .ok .alwaysTrue
    else .ok (makeRestriction { bsonType := .stringT } (.regexE path s "") typeExpr)
  | _ => .error .typeMismatch

/-- The fixed keyword map of `_parse` (parser lines 436-448). -/
def recognizedKeywords : List String :=
  ["type", "properties", "maximum", "minimum", "exclusiveMaximum",
   "exclusiveMinimum", "maxLength", "minLength", "pattern", "allOf",
   "anyOf", "oneOf", "not"]

/-- The keyword scan of `_parse` (parser lines 450-465): an unknown
keyword or a duplicate keyword is a `FailedToParse`. -/
def checkKeywords (seen : List String) : List (String × BsonValue) → Except ParseError Unit
  | [] => .ok ()
  | (k, _) :: rest =>
    if !recognizedKeywords.contains k then .error .failedToParse
    else if seen.contains k then .error .failedToParse
    else checkKeywords (k :: seen) rest

/-- `keywordMap[...]` lookup: the element of the schema carrying the
given keyword, if present. -/
def lookupKw (k : String) : List (String × BsonValue) → Option BsonValue
  | [] => none
  | (k2, v) :: rest => if k2 = k then some v else lookupKw k rest

theorem sizeOf_lookupKw {k : String} :
    ∀ {l : List (String × BsonValue)} {v : BsonValue},
      lookupKw k l = some v → sizeOf v < sizeOf l := by
  intro l
  induction l with
  | nil => intro v h; simp [lookupKw] at h
  | cons hd tl ih =>
    intro v h
    simp only [lookupKw] at h
    split at h
    · cases h; cases hd; simp; omega
    · have := ih h; simp; omega

namespace JSONSchemaParser

/-- The tail of `_parse` (parser lines 597-607): the top-level type
short-circuit returns AlwaysFalse for a stated non-Object type, a nested
stated type appends the type restriction, and the conjunction is
returned. -/
def _parseFinish (path : String) (typeExpr : Option TypeSpec)
    (cs : List MatchExpr) : Except ParseError MatchExpr :=
  match typeExpr with
  | some sp =>
    if path = "" then
      if sp.bsonType ≠ BSONType.objectT then .ok MatchExpr.alwaysFalse
      else .ok (MatchExpr.andE cs)
    else .ok (MatchExpr.andE (cs ++ [makeTypeRestriction path sp]))
  | none => .ok (MatchExpr.andE cs)

mutual

/-- `JSONSchemaParser::_parse` (parser lines 433-608): scan the keywords,
parse `type`, process each recognized keyword in the fixed order
(properties, maximum with its exclusive companion, minimum likewise,
maxLength, minLength, pattern, allOf, anyOf, oneOf, not), then apply the
top-level type short-circuit or append the nested type restriction. -/
def _parse (path : String) (schema : List (String × BsonValue)) :
    Except ParseError MatchExpr :=
  match checkKeywords [] schema with
  | .error e => .error e
  | .ok () =>
  match parseType (lookupKw "type" schema) with
  | .error e => .error e
  | .ok typeExpr =>
  match h : lookupKw "properties" schema with
  | some propertiesElt =>
    (match _parseProperties path propertiesElt typeExpr with
     | .error e => .error e
     | .ok e1 => _parseRest path schema typeExpr [e1])
  | none => _parseRest path schema typeExpr []
termination_by sizeOf schema * 8 + 7
decreasing_by all_goals first
  | (have hlt := sizeOf_lookupKw (by assumption); simp; omega)
  | (have hlt := sizeOf_lookupKw (by assumption); simp)
  | (simp; omega)
  | simp
  | omega

/-- The keyword chain of `_parse` after `properties` (parser lines
482-607), carrying the conjunction's children accumulated so far. -/
def _parseRest (path : String) (schema : List (String × BsonValue))
    (typeExpr : Option TypeSpec) (cs : List MatchExpr) :
    Except ParseError MatchExpr :=
  match lookupKw "maximum" schema with
  | some maximumElt =>
    (match
      ((match lookupKw "exclusiveMaximum" schema with
       | some exclusiveMaximumElt =>
         if !exclusiveMaximumElt.isBoolean then
           Except.error ParseError.typeMismatch
         else
           (match exclusiveMaximumElt with
            | .boolV b => Except.ok b
            | _ => Except.ok false)
       | none => Except.ok false) : Except ParseError Bool) with
     | .error e => .error e
     | .ok isExclusiveMaximum =>
       (match parseMaximum path maximumElt typeExpr isExclusiveMaximum with
        | .error e => .error e
        | .ok e2 => _parseRest2 path schema typeExpr (cs ++ [e2])))
  | none =>
    (match lookupKw "exclusiveMaximum" schema with
     | some _ => .error ParseError.failedToParse
     | none => _parseRest2 path schema typeExpr cs)
termination_by sizeOf schema * 8 + 6
decreasing_by all_goals first
  | (have hlt := sizeOf_lookupKw (by assumption); simp; omega)
  | (have hlt := sizeOf_lookupKw (by assumption); simp)
  | (simp; omega)
  | simp
  | omega

/-- The keyword chain of `_parse` from `minimum` on (parser lines
509-607). -/
def _parseRest2 (path : String) (schema : List (String × BsonValue))
    (typeExpr : Option TypeSpec) (cs : List MatchExpr) :
    Except ParseError MatchExpr :=
  match lookupKw "minimum" schema with
  | some minimumElt =>
    (match
      ((match lookupKw "exclusiveMinimum" schema with
       | some exclusiveMinimumElt =>
         if !exclusiveMinimumElt.isBoolean then
           Except.error ParseError.typeMismatch
         else
           (match exclusiveMinimumElt with
            | .boolV b => Except.ok b
            | _ => Except.ok false)
       | none => Except.ok false) : Except ParseError Bool) with
     | .error e => .error e
     | .ok isExclusiveMinimum =>
       (match parseMinimum path minimumElt typeExpr isExclusiveMinimum with
        | .error e => .error e
        | .ok e3 => _parseRest3 path schema typeExpr (cs ++ [e3])))
  | none =>
    (match lookupKw "exclusiveMinimum" schema with
     | some _ => .error ParseError.failedToParse
     | none => _parseRest3 path schema typeExpr cs)
termination_by sizeOf schema * 8 + 5
decreasing_by all_goals first
  | (have hlt := sizeOf_lookupKw (by assumption); simp; omega)
  | (have hlt := sizeOf_lookupKw (by assumption); simp)
  | (simp; omega)
  | simp
  | omega

/-- The keyword chain of `_parse` from `maxLength` on (parser lines
536-607). -/
def _parseRest3 (path : String) (schema : List (String × BsonValue))
    (typeExpr : Option TypeSpec) (cs : List MatchExpr) :
    Except ParseError MatchExpr :=
  match
    ((match lookupKw "maxLength" schema with
      | some maxLengthElt =>
        (match parseStrLength path maxLengthElt typeExpr MatchExpr.maxLengthE with
         | .error e => .error e
         | .ok e4 => .ok [e4])
      | none => .ok []) : Except ParseError (List MatchExpr)) with
  | .error e => .error e
  | .ok maxLenChildren =>
  match
    ((match lookupKw "minLength" schema with
      | some minLengthElt =>
        (match parseStrLength path minLengthElt typeExpr MatchExpr.minLengthE with
         | .error e => .error e
         | .ok e5 => .ok [e5])
      | none => .ok []) : Except ParseError (List MatchExpr)) with
  | .error e => .error e
  | .ok minLenChildren =>
  match
    ((match lookupKw "pattern" schema with
      | some patternElt =>
        (match parsePattern path patternElt typeExpr with
         | .error e => .error e
         | .ok e6 => .ok [e6])
      | none => .ok []) : Except ParseError (List MatchExpr)) with
  | .error e => .error e
  | .ok patChildren =>
  match h : lookupKw "allOf" schema with
  | some allOfElt =>
    (match _parseLogicalOf path allOfElt typeExpr "allOf" with
     | .error e => .error e
     | .ok e7 =>
       _parseRest4 path schema typeExpr
         (cs ++ maxLenChildren ++ minLenChildren ++ patChildren ++ [e7]))
  | none =>
    _parseRest4 path schema typeExpr
      (cs ++ maxLenChildren ++ minLenChildren ++ patChildren)
termination_by sizeOf schema * 8 + 4
decreasing_by all_goals first
  | (have hlt := sizeOf_lookupKw (by assumption); simp; omega)
  | (have hlt := sizeOf_lookupKw (by assumption); simp)
  | (simp; omega)
  | simp
  | omega

/-- The keyword chain of `_parse` from `anyOf` on (parser lines
571-607), ending in the top-level type short-circuit (lines 597-602) and
the nested type restriction (lines 604-606). -/
def _parseRest4 (path : String) (schema : List (String × BsonValue))
    (typeExpr : Option TypeSpec) (cs : List MatchExpr) :
    Except ParseError MatchExpr :=
  match h : lookupKw "anyOf" schema with
  | some anyOfElt =>
    (match _parseLogicalOf path anyOfElt typeExpr "anyOf" with
     | .error e => .error e
     | .ok e8 => _parseRest5 path schema typeExpr (cs ++ [e8]))
  | none => _parseRest5 path schema typeExpr cs
termination_by sizeOf schema * 8 + 3
decreasing_by all_goals first
  | (have hlt := sizeOf_lookupKw (by assumption); simp; omega)
  | (have hlt := sizeOf_lookupKw (by assumption); simp)
  | (simp; omega)
  | simp
  | omega

def _parseRest5 (path : String) (schema : List (String × BsonValue))
    (typeExpr : Option TypeSpec) (cs : List MatchExpr) :
    Except ParseError MatchExpr :=
  match h : lookupKw "oneOf" schema with
  | some oneOfElt =>
    (match _parseLogicalOf path oneOfElt typeExpr "oneOf" with
     | .error e => .error e
     | .ok e9 => _parseRest6 path schema typeExpr (cs ++ [e9]))
  | none => _parseRest6 path schema typeExpr cs
termination_by sizeOf schema * 8 + 2
decreasing_by all_goals first
  | (have hlt := sizeOf_lookupKw (by assumption); simp; omega)
  | (have hlt := sizeOf_lookupKw (by assumption); simp)
  | (simp; omega)
  | simp
  | omega

def _parseRest6 (path : String) (schema : List (String × BsonValue))
    (typeExpr : Option TypeSpec) (cs : List MatchExpr) :
    Except ParseError MatchExpr :=
  match h : lookupKw "not" schema with
  | some notElt =>
    (match _parseNot path notElt typeExpr with
     | .error e => .error e
     | .ok e10 => _parseFinish path typeExpr (cs ++ [e10]))
  | none => _parseFinish path typeExpr cs
termination_by sizeOf schema * 8 + 1
decreasing_by all_goals first
  | (have hlt := sizeOf_lookupKw (by assumption); simp; omega)
  | (have hlt := sizeOf_lookupKw (by assumption); simp)
  | (simp; omega)
  | simp
  | omega

/-- `_parseProperties` (parser lines 392-431): the element must be an
object; each property sub-schema is compiled with the property name as
path; the conjunction is returned directly at the top level, else
wrapped in an ObjectMatch and the Object restriction. -/
def _parseProperties (path : String) (propertiesElt : BsonValue)
    (typeExpr : Option TypeSpec) : Except ParseError MatchExpr :=
  match propertiesElt with
  | .obj props =>
    (match _parsePropertiesList props with
     | .error e => .error e
     | .ok children =>
       if path = "" then .ok (MatchExpr.andE children)
       else
         .ok (makeRestriction { bsonType := .objectT }
           (.objectMatch path (.andE children)) typeExpr))
  | _ => .error ParseError.typeMismatch
termination_by sizeOf propertiesElt * 8
decreasing_by all_goals first
  | (have hlt := sizeOf_lookupKw (by assumption); simp; omega)
  | (have hlt := sizeOf_lookupKw (by assumption); simp)
  | (simp; omega)
  | simp
  | omega

/-- The property loop of `_parseProperties` (parser lines 403-416): each
entry must itself be an object and is compiled recursively with the
property name as path. -/
def _parsePropertiesList (props : List (String × BsonValue)) :
    Except ParseError (List MatchExpr) :=
  match props with
  | [] => .ok []
  | (name, sub) :: rest =>
    match sub with
    | .obj subFields =>
      (match _parse name subFields with
       | .error e => .error e
       | .ok child =>
         (match _parsePropertiesList rest with
          | .error e => .error e
          | .ok others => .ok (child :: others)))
    | _ => .error ParseError.typeMismatch
termination_by sizeOf props * 8
decreasing_by all_goals first
  | (have hlt := sizeOf_lookupKw (by assumption); simp; omega)
  | (have hlt := sizeOf_lookupKw (by assumption); simp)
  | (simp; omega)
  | simp
  | omega

/-- `_parseLogicalOf` (parser lines 279-352): the element must be a
non-empty array of objects; each is compiled with its array index (as a
field name) for a path; the combinator is And, Or or Xor by keyword, and
is returned directly at the top level, else wrapped in an ObjectMatch
and the Object restriction. -/
def _parseLogicalOf (path : String) (logicalOf : BsonValue)
    (typeExpr : Option TypeSpec) (keyword : String) :
    Except ParseError MatchExpr :=
  match logicalOf with
  | .arr elems =>
    if elems.isEmpty then .error ParseError.badValue
    else
      (match _parseLogicalList elems 0 with
       | .error e => .error e
       | .ok children =>
         let combinator :=
           if keyword = "allOf" then MatchExpr.andE children
           else if keyword = "anyOf" then MatchExpr.orE children
           else MatchExpr.xorE children
         if path = "" then .ok combinator
         else
           .ok (makeRestriction { bsonType := .objectT }
             (.objectMatch path combinator) typeExpr))
  | _ => .error ParseError.typeMismatch
termination_by sizeOf logicalOf * 8
decreasing_by all_goals first
  | (have hlt := sizeOf_lookupKw (by assumption); simp; omega)
  | (have hlt := sizeOf_lookupKw (by assumption); simp)
  | (simp; omega)
  | simp
  | omega

/-- The array loop of `_parseLogicalOf` (parser lines 299-319): BSON
array iteration yields the decimal index as each element's field name,
which becomes the nested path. -/
def _parseLogicalList (elems : List BsonValue) (idx : Nat) :
    Except ParseError (List MatchExpr) :=
  match elems with
  | [] => .ok []
  | elt :: rest =>
    match elt with
    | .obj fields =>
      (match _parse (toString idx) fields with
       | .error e => .error e
       | .ok child =>
         (match _parseLogicalList rest (idx + 1) with
          | .error e => .error e
          | .ok others => .ok (child :: others)))
    | _ => .error ParseError.failedToParse
termination_by sizeOf elems * 8
decreasing_by all_goals first
  | (have hlt := sizeOf_lookupKw (by assumption); simp; omega)
  | (have hlt := sizeOf_lookupKw (by assumption); simp)
  | (simp; omega)
  | simp
  | omega

/-- `_parseNot` (parser lines 354-390): the element must be an object;
it is compiled with the `not` element's field name ("not") as path and
negated; the negation is returned directly at the top level, else
wrapped in an ObjectMatch and the Object restriction. -/
def _parseNot (path : String) (logicalNot : BsonValue)
    (typeExpr : Option TypeSpec) : Except ParseError MatchExpr :=
  match logicalNot with
  | .obj fields =>
    (match _parse "not" fields with
     | .error e => .error e
     | .ok inner =>
       if path = "" then .ok (MatchExpr.notE inner)
       else
         .ok (makeRestriction { bsonType := .objectT }
           (.objectMatch path (.notE inner)) typeExpr))
  | _ => .error ParseError.failedToParse
termination_by sizeOf logicalNot * 8
decreasing_by all_goals first
  | (have hlt := sizeOf_lookupKw (by assumption); simp; omega)
  | (have hlt := sizeOf_lookupKw (by assumption); simp)
  | (simp; omega)
  | simp
  | omega

end

/-- `JSONSchemaParser::parse` (parser lines 610-612): compile a schema
document from the empty (top-level) path. -/
def parse (schema : List (String × BsonValue)) : Except ParseError MatchExpr :=
  _parse "" schema

end JSONSchemaParser

/-! ## Characterization lemmas for the matcher -/

theorem matchesObject_eq_all (n : AllowedProperties) :
    ∀ fields, n.matchesObject fields = fields.all n.fieldOk := by
  intro fields
  induction fields with
  | nil => rfl
  | cons f rest ih =>
    simp only [AllowedProperties.matchesObject, List.all_cons, ih]
    cases n.fieldOk f <;> simp

theorem runPatterns_eq (name : String) (v : BsonValue) :
    ∀ (ps : List PatternSchema) (co : Bool),
      runPatterns name v ps co =
        if ps.all (fun p => !p.regex.partialMatch name || p.filter.evalSingle v) then
          some (co && !(ps.any fun p => p.regex.partialMatch name))
        else none := by
  intro ps
  induction ps with
  | nil => intro co; simp [runPatterns]
  | cons p rest ih =>
    intro co
    simp only [runPatterns, List.all_cons, List.any_cons]
    by_cases hm : p.regex.partialMatch name
    · by_cases he : p.filter.evalSingle v
      · simp [hm, he, ih]
      · simp [hm, he]
    · simp only [Bool.not_eq_true] at hm
      simp [hm, ih]

/-! ## Equivalence helpers -/

theorem setEq_self (l : List String) : setEq l l = true := by
  simp only [setEq, Bool.and_self, List.all_eq_true]
  intro x hx
  exact List.elem_iff.mpr hx

theorem setEq_iff (a b : List String) :
    setEq a b = true ↔ ((∀ s ∈ a, s ∈ b) ∧ (∀ s ∈ b, s ∈ a)) := by
  simp only [setEq, Bool.and_eq_true, List.all_eq_true]
  constructor
  · rintro ⟨h1, h2⟩
    exact ⟨fun s hs => List.elem_iff.mp (h1 s hs), fun s hs => List.elem_iff.mp (h2 s hs)⟩
  · rintro ⟨h1, h2⟩
    exact ⟨fun s hs => List.elem_iff.mpr (h1 s hs), fun s hs => List.elem_iff.mpr (h2 s hs)⟩

theorem all_perm {α : Type} {p : α → Bool} {l l2 : List α} (h : l.Perm l2) :
    l.all p = l2.all p := by
  induction h with
  | nil => rfl
  | cons x h ih => simp [ih]
  | swap x y l => simp only [List.all_cons]; cases p x <;> cases p y <;> simp
  | trans h1 h2 ih1 ih2 => rw [ih1, ih2]

theorem setEq_perm_left {a a2 b : List String} (h : a.Perm a2) :
    setEq a2 b = setEq a b := by
  rw [Bool.eq_iff_iff, setEq_iff, setEq_iff]
  constructor
  · rintro ⟨h1, h2⟩
    exact ⟨fun s hs => h1 s (h.mem_iff.mp hs), fun s hs => h.mem_iff.mpr (h2 s hs)⟩
  · rintro ⟨h1, h2⟩
    exact ⟨fun s hs => h1 s (h.mem_iff.mpr hs), fun s hs => h.mem_iff.mp (h2 s hs)⟩

theorem setEq_perm_right {a b b2 : List String} (h : b.Perm b2) :
    setEq a b2 = setEq a b := by
  rw [Bool.eq_iff_iff, setEq_iff, setEq_iff]
  constructor
  · rintro ⟨h1, h2⟩
    exact ⟨fun s hs => h.mem_iff.mpr (h1 s hs), fun s hs => h2 s (h.mem_iff.mp hs)⟩
  · rintro ⟨h1, h2⟩
    exact ⟨fun s hs => h.mem_iff.mp (h1 s hs), fun s hs => h2 s (h.mem_iff.mpr hs)⟩

theorem patternEquiv_iff (a b : PatternSchema) :
    patternEquiv a b = true ↔
      (a.filter = b.filter ∧ a.regex.serializedRegex = b.regex.serializedRegex) := by
  simp [patternEquiv, SubExpr.equiv]

theorem patternEquiv_congr {a b : PatternSchema} (x : PatternSchema)
    (h : patternEquiv a b = true) : patternEquiv x a = patternEquiv x b := by
  obtain ⟨h1, h2⟩ := (patternEquiv_iff a b).mp h
  simp [patternEquiv, SubExpr.equiv, h1, h2]

theorem countP_patternEquiv_eq (x : PatternSchema) :
    ∀ {l1 l2 : List PatternSchema},
      List.Forall₂ (fun a b => patternEquiv a b = true) l1 l2 →
      l1.countP (patternEquiv x) = l2.countP (patternEquiv x) := by
  intro l1 l2 h
  induction h with
  | nil => rfl
  | cons hab _ ih =>
    simp only [List.countP_cons, ih, patternEquiv_congr x hab]

theorem isPermutationBy_self {α : Type} (p : α → α → Bool) (l : List α) :
    isPermutationBy p l l = true := by
  simp [isPermutationBy, List.all_eq_true]

theorem isPermutationBy_of_relPerm {l1 l2 mid : List PatternSchema}
    (h1 : List.Forall₂ (fun a b => patternEquiv a b = true) l1 mid)
    (h2 : mid.Perm l2) :
    isPermutationBy patternEquiv l1 l2 = true := by
  simp only [isPermutationBy, Bool.and_eq_true, beq_iff_eq, List.all_eq_true]
  constructor
  · rw [h1.length_eq, h2.length_eq]
  · intro x _
    rw [countP_patternEquiv_eq x h1, h2.countP_eq]

theorem isPermutationBy_perm_left {α : Type} {p : α → α → Bool}
    {l1 l1b l2 : List α} (h : l1.Perm l1b) :
    isPermutationBy p l1b l2 = isPermutationBy p l1 l2 := by
  simp only [isPermutationBy, h.length_eq]
  have hc : ∀ x : α, l1b.countP (p x) = l1.countP (p x) := fun x => h.symm.countP_eq _
  simp only [hc]
  rw [all_perm h.symm]

theorem isPermutationBy_perm_right {α : Type} {p : α → α → Bool}
    {l1 l2 l2b : List α} (h : l2.Perm l2b) :
    isPermutationBy p l1 l2b = isPermutationBy p l1 l2 := by
  simp only [isPermutationBy, h.length_eq]
  have hc : ∀ x : α, l2b.countP (p x) = l2.countP (p x) := fun x => h.symm.countP_eq _
  simp only [hc]

/-- The positive skeleton of `equivalent`: equal property membership,
equal placeholders, is-permutation patterns, and matching `otherwise`
payloads give `some true`. -/
theorem equivalent_some_true_of (a b : AllowedProperties)
    (hprops : setEq a.properties b.properties = true)
    (hph : a.namePlaceholder = b.namePlaceholder)
    (hpat : isPermutationBy patternEquiv a.patternProperties b.patternProperties = true)
    (ho : (a.otherwise = none ∧ b.otherwise = none ∧ a.boolOtherwise = b.boolOtherwise) ∨
          (∃ ph f, a.otherwise = some (ph, f) ∧ b.otherwise = some (ph, f))) :
    a.equivalent b = some true := by
  unfold AllowedProperties.equivalent
  rcases ho with ⟨h1, h2, h3⟩ | ⟨ph, f, h1, h2⟩
  · simp [hprops, hph, hpat, h1, h2, h3]
  · simp [hprops, hph, hpat, h1, h2, SubExpr.equiv]

/-- One field of the input object passes `_matchesObject`'s loop body
exactly when every partially-matching pattern's sub-expression accepts
its value, and — when it is neither a literal member nor matched by any
pattern — the `otherwise` branch accepts it. -/
theorem fieldOk_iff (n : AllowedProperties) (f : String × BsonValue) :
    n.fieldOk f = true ↔
      ((∀ p ∈ n.patternProperties,
          p.regex.partialMatch f.1 = true → p.filter.evalSingle f.2 = true) ∧
       (n.properties.contains f.1 = false →
         (∀ p ∈ n.patternProperties, p.regex.partialMatch f.1 = false) →
         ((∀ ph g, n.otherwise = some (ph, g) → g.evalSingle f.2 = true) ∧
          (n.otherwise = none → n.boolOtherwise = true)))) := by
  unfold AllowedProperties.fieldOk
  rw [runPatterns_eq]
  by_cases hall :
      (n.patternProperties.all fun p => !p.regex.partialMatch f.1 || p.filter.evalSingle f.2) = true
  · have hP1 : ∀ p ∈ n.patternProperties,
        p.regex.partialMatch f.1 = true → p.filter.evalSingle f.2 = true := by
      intro p hp hm
      have hx := List.all_eq_true.mp hall p hp
      rw [hm] at hx
      simpa using hx
    rw [if_pos hall]
    by_cases hc : n.properties.contains f.1 = true
    · have hco : ((!n.properties.contains f.1) &&
          !(n.patternProperties.any fun p => p.regex.partialMatch f.1)) = false := by
        rw [hc]
        rfl
      simp only [hco]
      constructor
      · intro _
        exact ⟨hP1, fun hcf _ => nomatch hc.symm.trans hcf⟩
      · intro _
        rfl
    · replace hc : n.properties.contains f.1 = false := by
        cases hx : n.properties.contains f.1
        · rfl
        · exact absurd hx hc
      by_cases hany : (n.patternProperties.any fun p => p.regex.partialMatch f.1) = true
      · have hco : ((!n.properties.contains f.1) &&
            !(n.patternProperties.any fun p => p.regex.partialMatch f.1)) = false := by
          simp only [hany, Bool.not_true, Bool.and_false]
        simp only [hco]
        constructor
        · intro _
          refine ⟨hP1, fun _ hnone => ?_⟩
          obtain ⟨p, hp, hm⟩ := List.any_eq_true.mp hany
          rw [hnone p hp] at hm
          cases hm
        · intro _
          rfl
      · replace hany : (n.patternProperties.any fun p => p.regex.partialMatch f.1) = false := by
          cases hx : (n.patternProperties.any fun p => p.regex.partialMatch f.1)
          · rfl
          · exact absurd hx hany
        have hnone : ∀ p ∈ n.patternProperties, p.regex.partialMatch f.1 = false := by
          intro p hp
          cases hx : p.regex.partialMatch f.1
          · rfl
          · exact absurd (List.any_eq_true.mpr ⟨p, hp, hx⟩) (by rw [hany]; simp)
        have hco : ((!n.properties.contains f.1) &&
            !(n.patternProperties.any fun p => p.regex.partialMatch f.1)) = true := by
          rw [hc, hany]
          rfl
        simp only [hco]
        rw [if_pos trivial]
        cases ho : n.otherwise with
        | some x =>
          obtain ⟨ph, g⟩ := x
          constructor
          · intro hg
            refine ⟨hP1, fun _ _ => ⟨fun ph2 g2 he => ?_, fun he => nomatch he⟩⟩
            injection he with hpair
            cases hpair
            exact hg
          · intro hx
            exact (hx.2 hc hnone).1 ph g rfl
        | none =>
          constructor
          · intro hb
            exact ⟨hP1, fun _ _ => ⟨(fun ph2 g2 he => nomatch he), fun _ => hb⟩⟩
          · intro hx
            exact (hx.2 hc hnone).2 rfl
  · rw [if_neg hall]
    constructor
    · intro hx
      cases hx
    · intro hx
      exfalso
      apply hall
      rw [List.all_eq_true]
      intro p hp
      cases hm : p.regex.partialMatch f.1
      · simp
      · simp only [Bool.not_true, Bool.false_or]
        exact hx.1 p hp hm

/-! ## Fixtures (concrete nodes mirroring the repository's tests) -/

/-- The node of the `CorrectlyMatchesPropertiesAndPatternPropertiesAndOtherwise`
test: properties `['x']`, pattern `/^a/` with a string type check, otherwise a
number type check, placeholder `i`. -/
def exampleNode : AllowedProperties :=
  { properties := ["x"],
    patternProperties := [{ regex := { serializedRegex := "^a" }, placeholder := "i",
                            filter := .typeCheck "i" { bsonType := .stringT } }],
    otherwise := some ("i", .typeCheck "i" { allNumbers := true }),
    boolOtherwise := true, namePlaceholder := "i" }

/-- A node whose literal member `x` is also matched by the pattern `/^x/`
with a string type check. -/
def strictNode : AllowedProperties :=
  { properties := ["x"],
    patternProperties := [{ regex := { serializedRegex := "^x" }, placeholder := "i",
                            filter := .typeCheck "i" { bsonType := .stringT } }],
    otherwise := some ("i", .typeCheck "i" { allNumbers := true }),
    boolOtherwise := true, namePlaceholder := "i" }

/-- A node whose fallback is the boolean `true`. -/
def boolOtherwiseNode : AllowedProperties :=
  { properties := ["a"], patternProperties := [], otherwise := none,
    boolOtherwise := true, namePlaceholder := "i" }

/-- A node whose fallback is an expression; its `boolOtherwise` member
keeps the constructor default `true` (the expression `init` never writes
it). -/
def exprOtherwiseNode : AllowedProperties :=
  { properties := ["a"], patternProperties := [],
    otherwise := some ("i", .typeCheck "i" { allNumbers := true }),
    boolOtherwise := true, namePlaceholder := "i" }

/-- The `EquivalentReturnsCorrectResults` test's sixth node: properties
inserted as `['b','a']`. -/
def orderedNodeA : AllowedProperties :=
  { properties := ["b", "a"],
    patternProperties := [{ regex := { serializedRegex := "^a" }, placeholder := "i",
                            filter := .typeCheck "i" { bsonType := .stringT } }],
    otherwise := some ("i", .typeCheck "i" { allNumbers := true }),
    boolOtherwise := true, namePlaceholder := "i" }

/-- The same node with properties inserted as `['a','b']`. -/
def orderedNodeB : AllowedProperties :=
  { properties := ["a", "b"],
    patternProperties := [{ regex := { serializedRegex := "^a" }, placeholder := "i",
                            filter := .typeCheck "i" { bsonType := .stringT } }],
    otherwise := some ("i", .typeCheck "i" { allNumbers := true }),
    boolOtherwise := true, namePlaceholder := "i" }

/-! ## C1: the per-field algorithm of `_matchesObject` -/

/-- C1.  For every AllowedProperties node applied to an object value the
verdict is computed field by field: every pattern whose regex partially
matches the field's name must have its sub-expression accept the field's
value; a field matched by neither the literal set nor any pattern is
checked against `otherwise` (an expression must accept the value, the
boolean `false` rejects, the boolean `true` accepts), while a field in
the literal set or matched by a pattern never consults `otherwise`; the
node returns `true` iff every field passes. -/
theorem matchesObjectPerFieldAlgorithm (n : AllowedProperties)
    (fields : List (String × BsonValue)) :
    n.matchesObject fields = true ↔
      ∀ f ∈ fields,
        ((∀ p ∈ n.patternProperties,
            p.regex.partialMatch f.1 = true → p.filter.evalSingle f.2 = true) ∧
         (n.properties.contains f.1 = false →
           (∀ p ∈ n.patternProperties, p.regex.partialMatch f.1 = false) →
           ((∀ ph g, n.otherwise = some (ph, g) → g.evalSingle f.2 = true) ∧
            (n.otherwise = none → n.boolOtherwise = true)))) := by
  rw [matchesObject_eq_all, List.all_eq_true]
  constructor
  · intro h f hf
    exact (fieldOk_iff n f).mp (h f hf)
  · intro h f hf
    exact (fieldOk_iff n f).mpr (h f hf)

/-! ## C4: literal membership does not suppress pattern checks -/

/-- C4.  A field whose name is in the literal set and is partially
matched by a pattern whose sub-expression rejects its value makes the
whole match `false`; literal membership suppresses only the `otherwise`
check: a literally-allowed field passes exactly when every matching
pattern's sub-expression accepts it, whatever `otherwise` holds. -/
theorem literalMembershipKeepsPatternChecks (n : AllowedProperties)
    (name : String) (v : BsonValue) (fields : List (String × BsonValue))
    (hf : (name, v) ∈ fields)
    (hprop : n.properties.contains name = true)
    (p : PatternSchema) (hp : p ∈ n.patternProperties)
    (hm : p.regex.partialMatch name = true)
    (hfail : p.filter.evalSingle v = false) :
    n.matchesObject fields = false ∧
    (∀ (m : AllowedProperties) (name2 : String) (v2 : BsonValue),
        m.properties.contains name2 = true →
        (∀ q ∈ m.patternProperties,
          q.regex.partialMatch name2 = true → q.filter.evalSingle v2 = true) →
        m.fieldOk (name2, v2) = true) := by
  constructor
  · have hfo : n.fieldOk (name, v) = false := by
      unfold AllowedProperties.fieldOk
      rw [runPatterns_eq]
      have hne : ¬ ((n.patternProperties.all
          fun q => !q.regex.partialMatch name || q.filter.evalSingle v) = true) := by
        intro hall
        have hx := List.all_eq_true.mp hall p hp
        rw [hm, hfail] at hx
        simp at hx
      rw [if_neg hne]
    rw [matchesObject_eq_all]
    cases hres : fields.all n.fieldOk
    · rfl
    · exfalso
      have hx := List.all_eq_true.mp hres _ hf
      rw [hfo] at hx
      cases hx
  · intro m name2 v2 hc hpass
    unfold AllowedProperties.fieldOk
    rw [runPatterns_eq]
    have hcond : (m.patternProperties.all
        fun q => !q.regex.partialMatch name2 || q.filter.evalSingle v2) = true := by
      rw [List.all_eq_true]
      intro q hq
      cases hqm : q.regex.partialMatch name2
      · simp
      · simp only [Bool.not_true, Bool.false_or]
        exact hpass q hq hqm
    rw [if_pos hcond, hc]
    rfl

/-- C4 witness: the node with literal member `x` and pattern `/^x/`
requiring a string rejects `{x: 1}` even though `x` is literally
allowed. -/
theorem literalMembershipKeepsPatternChecksWitness :
    AllowedProperties.matchesObject strictNode [("x", BsonValue.num 1)] = false :=
  (literalMembershipKeepsPatternChecks strictNode "x" (BsonValue.num 1)
    [("x", BsonValue.num 1)] (List.mem_cons_self _ _) rfl
    { regex := { serializedRegex := "^x" }, placeholder := "i",
      filter := .typeCheck "i" { bsonType := .stringT } }
    (List.mem_cons_self _ _) rfl rfl).1

/-! ## C8: non-object values are rejected by the single-element entry -/

/-- C8.  `matchesSingleElement` returns `false` for every value whose
tag is not Object — arrays and strings included — so the per-field
algorithm runs only on Object-tagged values. -/
theorem matchesSingleRejectsNonObject (n : AllowedProperties) (v : BsonValue)
    (h : v.tag ≠ BSONType.objectT) : n.matchesSingleElement v = false := by
  cases v <;> first | rfl | exact absurd rfl h

/-- C8 witness: the test node rejects an array and a string. -/
theorem matchesSingleRejectsNonObjectWitness :
    AllowedProperties.matchesSingleElement exampleNode (.arr [.num 1]) = false ∧
    AllowedProperties.matchesSingleElement exampleNode (.str "s") = false :=
  ⟨matchesSingleRejectsNonObject exampleNode _ (by decide),
   matchesSingleRejectsNonObject exampleNode _ (by decide)⟩

/-! ## C10: the whole-document entry point has no object guard -/

/-- C10.  `matches` applies `_matchesObject` to the document directly —
no type guard exists on that path — and agrees with
`matchesSingleElement` on every Object-tagged value. -/
theorem matchesEntryPointsAgreement (n : AllowedProperties) :
    (∀ doc, n.matchesDoc doc = n.matchesObject doc) ∧
    (∀ fields, n.matchesSingleElement (BsonValue.obj fields) = n.matchesDoc fields) :=
  ⟨fun _ => rfl, fun _ => rfl⟩

/-! ## C3: the `otherwise` kinds are never compared -/

/-- C3 (code bug).  `equivalent` never compares the kinds of the two
`otherwise` members: a node holding the boolean `true` compares equal to
a node holding an expression (the other node's defaulted
`_boolOtherwise == true` passes the boolean comparison), and with the
operands swapped the comparison dereferences the other node's null
`_otherwise` (modelled `none`). -/
theorem equivalentMixedOtherwiseBug :
    AllowedProperties.equivalent boolOtherwiseNode exprOtherwiseNode = some true ∧
    AllowedProperties.equivalent exprOtherwiseNode boolOtherwiseNode = none := by
  constructor <;> rfl

/-! ## C6: order independence of `equivalent` -/

/-- C6.  Nodes equal in every other component whose literal property
sets have the same names regardless of insertion order and whose
pattern lists are permutations of each other under the pairwise relation
"serialized regex equal and sub-expression equivalent" are equivalent;
and reordering either collection of either operand never changes the
result of `equivalent`. -/
theorem equivalentOrderIndependence :
    (∀ n1 n2 : AllowedProperties,
        n1.namePlaceholder = n2.namePlaceholder →
        n1.otherwise = n2.otherwise →
        (n1.otherwise = none → n1.boolOtherwise = n2.boolOtherwise) →
        n1.properties.Perm n2.properties →
        (∃ mid, List.Forall₂ (fun a b => patternEquiv a b = true)
            n1.patternProperties mid ∧ mid.Perm n2.patternProperties) →
        n1.equivalent n2 = some true) ∧
    (∀ (n1 n2 : AllowedProperties) (props2 : List String) (pats2 : List PatternSchema),
        props2.Perm n1.properties → pats2.Perm n1.patternProperties →
        ((AllowedProperties.mk props2 pats2 n1.otherwise n1.boolOtherwise
            n1.namePlaceholder).equivalent n2 = n1.equivalent n2 ∧
         n2.equivalent (AllowedProperties.mk props2 pats2 n1.otherwise n1.boolOtherwise
            n1.namePlaceholder) = n2.equivalent n1)) := by
  constructor
  · intro n1 n2 hph ho hbo hpr hex
    obtain ⟨mid, hf, hperm⟩ := hex
    apply equivalent_some_true_of
    · rw [setEq_iff]
      exact ⟨fun s hs => hpr.mem_iff.mp hs, fun s hs => hpr.mem_iff.mpr hs⟩
    · exact hph
    · exact isPermutationBy_of_relPerm hf hperm
    · cases hx : n1.otherwise with
      | none => exact Or.inl ⟨rfl, ho.symm.trans hx, hbo hx⟩
      | some x =>
        obtain ⟨ph, f⟩ := x
        exact Or.inr ⟨ph, f, rfl, ho.symm.trans hx⟩
  · intro n1 n2 props2 pats2 hpr hpat
    constructor
    · simp only [AllowedProperties.equivalent]
      rw [setEq_perm_left hpr, isPermutationBy_perm_left hpat]
    · simp only [AllowedProperties.equivalent]
      rw [setEq_perm_right hpr.symm, isPermutationBy_perm_right hpat.symm]

/-- C6 witness: the test's nodes 6 and 7, whose property sets were
inserted in opposite orders, are equivalent. -/
theorem equivalentOrderIndependenceWitness :
    AllowedProperties.equivalent orderedNodeA orderedNodeB = some true :=
  equivalentOrderIndependence.1 orderedNodeA orderedNodeB rfl rfl (fun _ => rfl)
    (List.Perm.swap "a" "b" [])
    ⟨orderedNodeA.patternProperties,
     List.Forall₂.cons (by decide) List.Forall₂.nil, List.Perm.refl _⟩

/-! ## C7: clone fidelity -/

theorem clone_patterns_eq (l : List PatternSchema) :
    (l.map fun e => ({ regex := e.regex.clone, placeholder := e.placeholder,
                       filter := e.filter } : PatternSchema)) = l := by
  induction l with
  | nil => rfl
  | cons e rest ih => simp [ih, Regex.clone]

/-- What `shallowClone` builds, in closed form: the same node, except
that a clone built through the expression branch keeps the fresh
node's defaulted `_boolOtherwise = true`. -/
theorem shallowClone_eq (n : AllowedProperties) :
    n.shallowClone = (match n.otherwise with
      | some x => { n with otherwise := some x, boolOtherwise := true }
      | none => n) := by
  cases n with
  | mk props pats oth bo phn =>
    cases oth with
    | some x =>
      obtain ⟨ph, f⟩ := x
      simp [AllowedProperties.shallowClone, clone_patterns_eq, SubExpr.shallowClone]
    | none =>
      simp [AllowedProperties.shallowClone, clone_patterns_eq, SubExpr.shallowClone]

theorem fieldOk_ignores_boolOtherwise (props : List String)
    (pats : List PatternSchema) (x : String × SubExpr) (bo bo2 : Bool)
    (phn : String) (f : String × BsonValue) :
    (AllowedProperties.mk props pats (some x) bo2 phn).fieldOk f =
      (AllowedProperties.mk props pats (some x) bo phn).fieldOk f := by
  obtain ⟨ph, g⟩ := x
  rfl

/-- C7.  The clone is equivalent to the original (in both operand
orders) and returns the same verdict on every single value and every
whole document. -/
theorem shallowCloneFidelity (n : AllowedProperties) :
    n.shallowClone.equivalent n = some true ∧
    n.equivalent n.shallowClone = some true ∧
    (∀ v, n.shallowClone.matchesSingleElement v = n.matchesSingleElement v) ∧
    (∀ doc, n.shallowClone.matchesDoc doc = n.matchesDoc doc) := by
  rw [shallowClone_eq]
  cases n with
  | mk props pats oth bo phn =>
    cases oth with
    | none =>
      refine ⟨?_, ?_, fun v => rfl, fun doc => rfl⟩ <;>
        exact equivalent_some_true_of _ _ (setEq_self _) rfl
          (isPermutationBy_self _ _) (Or.inl ⟨rfl, rfl, rfl⟩)
    | some x =>
      obtain ⟨ph, f⟩ := x
      have heval : ∀ doc,
          (AllowedProperties.mk props pats (some (ph, f)) true phn).matchesObject doc =
          (AllowedProperties.mk props pats (some (ph, f)) bo phn).matchesObject doc := by
        intro doc
        rw [matchesObject_eq_all, matchesObject_eq_all]
        have hfn : (AllowedProperties.mk props pats (some (ph, f)) true phn).fieldOk =
            (AllowedProperties.mk props pats (some (ph, f)) bo phn).fieldOk :=
          funext fun g => fieldOk_ignores_boolOtherwise props pats (ph, f) bo true phn g
        rw [hfn]
      refine ⟨?_, ?_, ?_, heval⟩
      · exact equivalent_some_true_of _ _ (setEq_self _) rfl
          (isPermutationBy_self _ _) (Or.inr ⟨ph, f, rfl, rfl⟩)
      · exact equivalent_some_true_of _ _ (setEq_self _) rfl
          (isPermutationBy_self _ _) (Or.inr ⟨ph, f, rfl, rfl⟩)
      · intro v
        cases v <;> try rfl
        exact heval _

/-! ## C9: the empty-path short-circuit of the field-only keywords -/

/-- C9 counterexample: at the top level a non-numeric `maximum` element
is a `TypeMismatch` error, not AlwaysTrue — the element validation runs
before the empty-path short-circuit. -/
theorem emptyPathKeywordsCounterexample :
    parseMaximum "" (BsonValue.str "x") none false = .error ParseError.typeMismatch ∧
    parseMaximum "" (BsonValue.str "x") none false ≠ .ok MatchExpr.alwaysTrue := by
  refine ⟨rfl, fun h => Except.noConfusion h⟩

/-- C9 (amended).  At the top level (empty path) each of `maximum`,
`minimum`, `maxLength`, `minLength` and `pattern` contributes AlwaysTrue
for every element that passes that keyword's own element validation;
the validation precedes the empty-path short-circuit, so an ill-typed
element still errors at the top level for each of the five keywords
(non-numeric maximum/minimum, non-numeric or non-integral or negative
maxLength/minLength, non-string pattern). -/
theorem emptyPathKeywordsShortCircuit :
    (∀ (v : BsonValue) (t : Option TypeSpec) (excl : Bool),
        v.isNumber = true → parseMaximum "" v t excl = .ok .alwaysTrue) ∧
    (∀ (v : BsonValue) (t : Option TypeSpec) (excl : Bool),
        v.isNumber = true → parseMinimum "" v t excl = .ok .alwaysTrue) ∧
    (∀ (v : BsonValue) (t : Option TypeSpec) (len : Int),
        parseIntegerElementToNonNegativeLong v = .ok len →
        parseStrLength "" v t MatchExpr.maxLengthE = .ok .alwaysTrue) ∧
    (∀ (v : BsonValue) (t : Option TypeSpec) (len : Int),
        parseIntegerElementToNonNegativeLong v = .ok len →
        parseStrLength "" v t MatchExpr.minLengthE = .ok .alwaysTrue) ∧
    (∀ (s : String) (t : Option TypeSpec),
        parsePattern "" (.str s) t = .ok .alwaysTrue) ∧
    (∀ (v : BsonValue) (t : Option TypeSpec) (excl : Bool),
        v.isNumber = false → parseMaximum "" v t excl = .error .typeMismatch) ∧
    (∀ (v : BsonValue) (t : Option TypeSpec) (excl : Bool),
        v.isNumber = false → parseMinimum "" v t excl = .error .typeMismatch) ∧
    (∀ (v : BsonValue) (t : Option TypeSpec) (mk : String → Int → MatchExpr),
        v.isNumber = false → parseStrLength "" v t mk = .error .typeMismatch) ∧
    (∀ (v : BsonValue) (t : Option TypeSpec) (mk : String → Int → MatchExpr)
        (e : ParseError), v.isNumber = true →
        parseIntegerElementToNonNegativeLong v = .error e →
        parseStrLength "" v t mk = .error e) ∧
    (∀ (v : BsonValue) (t : Option TypeSpec),
        v.tag ≠ BSONType.stringT → parsePattern "" v t = .error .typeMismatch) := by
  refine ⟨?_, ?_, ?_, ?_, ?_, ?_, ?_, ?_, ?_, ?_⟩
  · intro v t excl h
    unfold parseMaximum
    rw [h]
    rfl
  · intro v t excl h
    unfold parseMinimum
    rw [h]
    rfl
  · intro v t len h
    cases v <;> first | exact Except.noConfusion h | (unfold parseStrLength; rw [h]; rfl)
  · intro v t len h
    cases v <;> first | exact Except.noConfusion h | (unfold parseStrLength; rw [h]; rfl)
  · intro s t
    rfl
  · intro v t excl h
    unfold parseMaximum
    rw [h]
    rfl
  · intro v t excl h
    unfold parseMinimum
    rw [h]
    rfl
  · intro v t mk h
    unfold parseStrLength
    rw [h]
    rfl
  · intro v t mk e h1 h2
    cases v <;> first | (unfold parseStrLength; rw [h2]; rfl) | exact absurd h1 (by simp [BsonValue.isNumber])
  · intro v t h
    cases v <;> first | rfl | exact absurd rfl h

/-- C9 witness: a well-typed `maximum` at the top level yields
AlwaysTrue, and a well-typed `maxLength` does too. -/
theorem emptyPathKeywordsShortCircuitWitness :
    parseMaximum "" (BsonValue.num 5) none false = .ok MatchExpr.alwaysTrue ∧
    parseStrLength "" (BsonValue.num 5) none MatchExpr.maxLengthE = .ok MatchExpr.alwaysTrue ∧
    parsePattern "" (BsonValue.num 5) none = .error ParseError.typeMismatch :=
  ⟨emptyPathKeywordsShortCircuit.1 (BsonValue.num 5) none false rfl,
   emptyPathKeywordsShortCircuit.2.2.1 (BsonValue.num 5) none 5 rfl,
   emptyPathKeywordsShortCircuit.2.2.2.2.2.2.2.2.2 (BsonValue.num 5) none (by decide)⟩

/-! ## C5: the top-level non-Object type short-circuit -/

theorem eval_alwaysFalse (doc : List (String × BsonValue)) :
    MatchExpr.eval MatchExpr.alwaysFalse doc = false := by
  simp [MatchExpr.eval]

/-- The tail of the compiler at the top level with a stated non-Object
type returns AlwaysFalse (parser lines 597-602). -/
theorem parseFinish_top (sp : TypeSpec) (hobj : sp.bsonType ≠ BSONType.objectT)
    (cs : List MatchExpr) :
    JSONSchemaParser._parseFinish "" (some sp) cs = .ok MatchExpr.alwaysFalse := by
  unfold JSONSchemaParser._parseFinish
  simp [hobj]

theorem parseRest6_top (schema : List (String × BsonValue)) (sp : TypeSpec)
    (hobj : sp.bsonType ≠ BSONType.objectT) (cs : List MatchExpr) (t : MatchExpr)
    (h : JSONSchemaParser._parseRest6 "" schema (some sp) cs = .ok t) :
    t = MatchExpr.alwaysFalse := by
  rw [JSONSchemaParser._parseRest6.eq_def] at h
  repeat' split at h
  all_goals first
    | exact Except.noConfusion h
    | (rw [parseFinish_top sp hobj] at h; injection h with h2; exact h2.symm)

theorem parseRest5_top (schema : List (String × BsonValue)) (sp : TypeSpec)
    (hobj : sp.bsonType ≠ BSONType.objectT) (cs : List MatchExpr) (t : MatchExpr)
    (h : JSONSchemaParser._parseRest5 "" schema (some sp) cs = .ok t) :
    t = MatchExpr.alwaysFalse := by
  rw [JSONSchemaParser._parseRest5.eq_def] at h
  repeat' split at h
  all_goals first
    | exact Except.noConfusion h
    | exact parseRest6_top schema sp hobj _ t h

theorem parseRest4_top (schema : List (String × BsonValue)) (sp : TypeSpec)
    (hobj : sp.bsonType ≠ BSONType.objectT) (cs : List MatchExpr) (t : MatchExpr)
    (h : JSONSchemaParser._parseRest4 "" schema (some sp) cs = .ok t) :
    t = MatchExpr.alwaysFalse := by
  rw [JSONSchemaParser._parseRest4.eq_def] at h
  repeat' split at h
  all_goals first
    | exact Except.noConfusion h
    | exact parseRest5_top schema sp hobj _ t h

theorem parseRest3_top (schema : List (String × BsonValue)) (sp : TypeSpec)
    (hobj : sp.bsonType ≠ BSONType.objectT) (cs : List MatchExpr) (t : MatchExpr)
    (h : JSONSchemaParser._parseRest3 "" schema (some sp) cs = .ok t) :
    t = MatchExpr.alwaysFalse := by
  rw [JSONSchemaParser._parseRest3.eq_def] at h
  repeat' split at h
  all_goals first
    | exact Except.noConfusion h
    | exact parseRest4_top schema sp hobj _ t h

theorem parseRest2_top (schema : List (String × BsonValue)) (sp : TypeSpec)
    (hobj : sp.bsonType ≠ BSONType.objectT) (cs : List MatchExpr) (t : MatchExpr)
    (h : JSONSchemaParser._parseRest2 "" schema (some sp) cs = .ok t) :
    t = MatchExpr.alwaysFalse := by
  rw [JSONSchemaParser._parseRest2.eq_def] at h
  repeat' split at h
  all_goals first
    | exact Except.noConfusion h
    | exact parseRest3_top schema sp hobj _ t h

theorem parseRest_top (schema : List (String × BsonValue)) (sp : TypeSpec)
    (hobj : sp.bsonType ≠ BSONType.objectT) (cs : List MatchExpr) (t : MatchExpr)
    (h : JSONSchemaParser._parseRest "" schema (some sp) cs = .ok t) :
    t = MatchExpr.alwaysFalse := by
  rw [JSONSchemaParser._parseRest.eq_def] at h
  repeat' split at h
  all_goals first
    | exact Except.noConfusion h
    | exact parseRest2_top schema sp hobj _ t h

/-- C5.  A top-level schema whose `type` keyword resolves to anything
other than the Object tag — the any-numeric "number" alias included —
compiles (when compilation succeeds at all) to AlwaysFalse, which
rejects every document; for the one-keyword schema `{type: <alias>}`
compilation does succeed with AlwaysFalse. -/
theorem topLevelNonObjectTypeShortCircuit :
    (∀ (schema : List (String × BsonValue)) (t : MatchExpr) (a : String) (sp : TypeSpec),
        lookupKw "type" schema = some (.str a) →
        resolveTypeAlias a = .ok sp →
        sp.bsonType ≠ BSONType.objectT →
        JSONSchemaParser.parse schema = .ok t →
        t = MatchExpr.alwaysFalse ∧ ∀ doc, MatchExpr.eval t doc = false) ∧
    (∀ (a : String) (sp : TypeSpec),
        resolveTypeAlias a = .ok sp →
        sp.bsonType ≠ BSONType.objectT →
        JSONSchemaParser.parse [("type", .str a)] = .ok MatchExpr.alwaysFalse) := by
  constructor
  · intro schema t a sp hlook hres hobj h
    unfold JSONSchemaParser.parse at h
    rw [JSONSchemaParser._parse.eq_def] at h
    rw [hlook] at h
    simp only [parseType, hres, Except.map] at h
    repeat' split at h
    all_goals first
      | exact Except.noConfusion h
      | (have ht := parseRest_top schema sp hobj _ t h
         subst ht
         exact ⟨rfl, fun doc => eval_alwaysFalse doc⟩)
  · intro a sp hres hobj
    unfold JSONSchemaParser.parse
    rw [JSONSchemaParser._parse.eq_def]
    have h6 : ∀ cs, JSONSchemaParser._parseRest6 "" [("type", BsonValue.str a)]
        (some sp) cs = .ok MatchExpr.alwaysFalse := by
      intro cs
      rw [JSONSchemaParser._parseRest6.eq_def]
      split
      · rename_i x heq
        rw [show lookupKw "not" [("type", BsonValue.str a)] = none from rfl] at heq
        exact nomatch heq
      · exact parseFinish_top sp hobj _
    have h5 : ∀ cs, JSONSchemaParser._parseRest5 "" [("type", BsonValue.str a)]
        (some sp) cs = .ok MatchExpr.alwaysFalse := by
      intro cs
      rw [JSONSchemaParser._parseRest5.eq_def]
      split
      · rename_i x heq
        rw [show lookupKw "oneOf" [("type", BsonValue.str a)] = none from rfl] at heq
        exact nomatch heq
      · exact h6 _
    have h4 : ∀ cs, JSONSchemaParser._parseRest4 "" [("type", BsonValue.str a)]
        (some sp) cs = .ok MatchExpr.alwaysFalse := by
      intro cs
      rw [JSONSchemaParser._parseRest4.eq_def]
      split
      · rename_i x heq
        rw [show lookupKw "anyOf" [("type", BsonValue.str a)] = none from rfl] at heq
        exact nomatch heq
      · exact h5 _
    have h3 : ∀ cs, JSONSchemaParser._parseRest3 "" [("type", BsonValue.str a)]
        (some sp) cs = .ok MatchExpr.alwaysFalse := by
      intro cs
      rw [JSONSchemaParser._parseRest3.eq_def]
      simp only [show lookupKw "maxLength" [("type", BsonValue.str a)] = none from rfl,
        show lookupKw "minLength" [("type", BsonValue.str a)] = none from rfl,
        show lookupKw "pattern" [("type", BsonValue.str a)] = none from rfl]
      split
      · rename_i x heq
        rw [show lookupKw "allOf" [("type", BsonValue.str a)] = none from rfl] at heq
        exact nomatch heq
      · exact h4 _
    have h2 : ∀ cs, JSONSchemaParser._parseRest2 "" [("type", BsonValue.str a)]
        (some sp) cs = .ok MatchExpr.alwaysFalse := by
      intro cs
      rw [JSONSchemaParser._parseRest2.eq_def]
      simp only [show lookupKw "minimum" [("type", BsonValue.str a)] = none from rfl,
        show lookupKw "exclusiveMinimum" [("type", BsonValue.str a)] = none from rfl]
      exact h3 _
    have h1 : ∀ cs, JSONSchemaParser._parseRest "" [("type", BsonValue.str a)]
        (some sp) cs = .ok MatchExpr.alwaysFalse := by
      intro cs
      rw [JSONSchemaParser._parseRest.eq_def]
      simp only [show lookupKw "maximum" [("type", BsonValue.str a)] = none from rfl,
        show lookupKw "exclusiveMaximum" [("type", BsonValue.str a)] = none from rfl]
      exact h2 _
    rw [show checkKeywords [] [("type", BsonValue.str a)] = Except.ok () from rfl]
    rw [show lookupKw "type" [("type", BsonValue.str a)] = some (BsonValue.str a) from rfl]
    simp only [parseType, hres, Except.map]
    split
    · rename_i x heq
      rw [show lookupKw "properties" [("type", BsonValue.str a)] = none from rfl] at heq
      exact nomatch heq
    · exact h1 _

/-- C5 counterexample: the top-level schema
`{type: 'string', maximum: 'x'}` has a type keyword resolving to a
non-Object tag, yet compilation fails with TypeMismatch (on `maximum`)
rather than succeeding with AlwaysFalse. -/
theorem topLevelNonObjectTypeCounterexample :
    JSONSchemaParser.parse
      [("type", BsonValue.str "string"), ("maximum", BsonValue.str "x")] =
      .error ParseError.typeMismatch := by
  unfold JSONSchemaParser.parse
  rw [JSONSchemaParser._parse.eq_def]
  simp only [show checkKeywords []
      [("type", BsonValue.str "string"), ("maximum", BsonValue.str "x")] =
      Except.ok () from rfl,
    show parseType (lookupKw "type"
      [("type", BsonValue.str "string"), ("maximum", BsonValue.str "x")]) =
      Except.ok (some ({ bsonType := .stringT } : TypeSpec)) from rfl]
  split
  · rename_i x heq
    rw [show lookupKw "properties"
      [("type", BsonValue.str "string"), ("maximum", BsonValue.str "x")] = none from rfl] at heq
    exact nomatch heq
  · rw [JSONSchemaParser._parseRest.eq_def]
    simp only [show lookupKw "maximum"
        [("type", BsonValue.str "string"), ("maximum", BsonValue.str "x")] =
        some (BsonValue.str "x") from rfl,
      show lookupKw "exclusiveMaximum"
        [("type", BsonValue.str "string"), ("maximum", BsonValue.str "x")] = none from rfl,
      show parseMaximum "" (BsonValue.str "x")
        (some ({ bsonType := .stringT } : TypeSpec)) false =
        Except.error ParseError.typeMismatch from rfl]

/-- C5 witness: `{type: 'number'}` — the any-numeric alias — compiles to
AlwaysFalse, and AlwaysFalse rejects a sample document. -/
theorem topLevelNonObjectTypeShortCircuitWitness :
    JSONSchemaParser.parse [("type", .str "number")] = .ok MatchExpr.alwaysFalse ∧
    MatchExpr.eval MatchExpr.alwaysFalse [("a", BsonValue.num 1)] = false :=
  ⟨topLevelNonObjectTypeShortCircuit.2 "number" { allNumbers := true } rfl (by decide),
   eval_alwaysFalse _⟩

/-! ## C2: serialization and re-parsing

The schema compiler's keyword map has no entry for the node's
`$_internalSchemaAllowedProperties` key, so compiling a serialized
AllowedProperties node fails; the re-parser that does accept the
canonical form is the external match-expression parser, modelled from
the spec (section 6 gives the canonical serialized form). -/

/-- Modelled from the spec: the inverse direction of the external alias
table used when re-parsing a serialized type check. -/
def decodeAlias (s : String) : Option TypeSpec :=
  if s = "number" then some { allNumbers := true, bsonType := .eoo }
  else if s = "eoo" then some { bsonType := .eoo }
  else if s = "double" then some { bsonType := .numberT }
  else if s = "string" then some { bsonType := .stringT }
  else if s = "object" then some { bsonType := .objectT }
  else if s = "array" then some { bsonType := .arrayT }
  else if s = "bool" then some { bsonType := .boolT }
  else if s = "null" then some { bsonType := .nullT }
  else if s = "regex" then some { bsonType := .regexT }
  else none

/-- Modelled from the spec: re-parsing of a serialized sub-expression by
the external match-expression parser. -/
def decodeSub : BsonValue → Option SubExpr
  | .obj [(k, .obj [(k2, .str al)])] =>
    if k2 = "$type" then (decodeAlias al).map (SubExpr.typeCheck k) else none
  | .obj [(k, .num _)] =>
    if k = "$alwaysTrue" then some .alwaysT
    else if k = "$alwaysFalse" then some .alwaysF
    else none
  | _ => none

/-- A sub-expression is well formed when its type spec is in the range
of the alias table (the any-numeric spec leaves its concrete tag
unset), as every spec produced by the external parser is. -/
def SubExpr.wfB : SubExpr → Bool
  | .typeCheck _ spec => !spec.allNumbers || spec.bsonType == .eoo
  | _ => true

/-- A node is well formed when its sub-expressions are and the
`otherwise` expression's placeholder is the one its serialized form
exhibits — the invariant `ExpressionWithPlaceholder` maintains. -/
def AllowedProperties.wfB (n : AllowedProperties) : Bool :=
  (n.patternProperties.all fun e => e.filter.wfB) &&
  (match n.otherwise with
   | some (ph, f) => f.wfB && (f.placeholderOf == ph)
   | none => true)

def decodeStrList : List BsonValue → Option (List String)
  | [] => some []
  | .str s :: rest => (decodeStrList rest).map (fun l => s :: l)
  | _ => none

def decodePatternList : List BsonValue → Option (List PatternSchema)
  | [] => some []
  | .obj [("regex", .regexV src _), ("expression", e)] :: rest =>
    (match decodeSub e with
     | none => none
     | some f =>
       (match decodePatternList rest with
        | none => none
        | some others =>
          some ({ regex := { serializedRegex := src },
                  placeholder := f.placeholderOf, filter := f } :: others)))
  | _ => none

/-- Modelled from the spec: the external match-expression parser's
re-parsing of the canonical serialized form
`{$_internalSchemaAllowedProperties: {properties, namePlaceholder,
patternProperties, otherwise}}` into a node (placeholders are recovered
from the serialized sub-expressions; a fresh node built through the
expression branch keeps the defaulted `_boolOtherwise = true`). -/
def reparseAllowedProperties : List (String × BsonValue) → Option AllowedProperties
  | [("$_internalSchemaAllowedProperties", .obj
      [("properties", .arr ps), ("namePlaceholder", .str ph),
       ("patternProperties", .arr pats), ("otherwise", ow)])] =>
    (match decodeStrList ps with
     | none => none
     | some props =>
       (match decodePatternList pats with
        | none => none
        | some patterns =>
          (match ow with
           | .boolV b => some ⟨props, patterns, none, b, ph⟩
           | e =>
             (match decodeSub e with
              | none => none
              | some f => some ⟨props, patterns, some (f.placeholderOf, f), true, ph⟩))))
  | _ => none

theorem decodeAlias_aliasName (s : TypeSpec)
    (h : s.allNumbers = true → s.bsonType = .eoo) :
    decodeAlias s.aliasName = some s := by
  obtain ⟨an, bt⟩ := s
  cases an
  · cases bt <;> rfl
  · have hb : bt = BSONType.eoo := h rfl
    subst hb
    rfl

theorem decodeSub_serialize (f : SubExpr) (h : f.wfB = true) :
    decodeSub f.serialize = some f := by
  cases f with
  | typeCheck p spec =>
    have hs : decodeAlias spec.aliasName = some spec := by
      apply decodeAlias_aliasName
      intro ha
      simp only [SubExpr.wfB] at h
      rw [ha] at h
      simpa using h
    simp [SubExpr.serialize, decodeSub, hs]
  | alwaysT => rfl
  | alwaysF => rfl

theorem decodeStrList_map (l : List String) :
    decodeStrList (l.map BsonValue.str) = some l := by
  induction l with
  | nil => rfl
  | cons s rest ih => simp [decodeStrList, ih]

theorem decodePatternList_map (l : List PatternSchema)
    (h : (l.all fun e => e.filter.wfB) = true) :
    decodePatternList (l.map fun e =>
      BsonValue.obj [("regex", .regexV e.regex.serializedRegex ""),
                     ("expression", e.filter.serialize)]) =
    some (l.map fun e => ({ regex := e.regex, placeholder := e.filter.placeholderOf,
                            filter := e.filter } : PatternSchema)) := by
  induction l with
  | nil => rfl
  | cons e rest ih =>
    simp only [List.all_cons, Bool.and_eq_true] at h
    obtain ⟨h1, h2⟩ := h
    simp [decodePatternList, decodeSub_serialize e.filter h1, ih h2]

theorem forall2_patternEquiv_map (l : List PatternSchema) :
    List.Forall₂ (fun a b => patternEquiv a b = true)
      (l.map fun e => ({ regex := e.regex, placeholder := e.filter.placeholderOf,
                         filter := e.filter } : PatternSchema)) l := by
  induction l with
  | nil => exact List.Forall₂.nil
  | cons e rest ih =>
    refine List.Forall₂.cons ?_ ih
    rw [patternEquiv_iff]
    exact ⟨rfl, rfl⟩

theorem forall2_patternEquiv_map_rev (l : List PatternSchema) :
    List.Forall₂ (fun a b => patternEquiv a b = true)
      l (l.map fun e => ({ regex := e.regex, placeholder := e.filter.placeholderOf,
                           filter := e.filter } : PatternSchema)) := by
  induction l with
  | nil => exact List.Forall₂.nil
  | cons e rest ih =>
    refine List.Forall₂.cons ?_ ih
    rw [patternEquiv_iff]
    exact ⟨rfl, rfl⟩

/-- C2 counterexample: the canonical serialization of a concrete
AllowedProperties node does not re-compile through the schema compiler —
its top-level key is not a recognized schema keyword. -/
theorem serializeRoundTripCounterexample :
    JSONSchemaParser.parse (AllowedProperties.serialize exampleNode) =
      .error ParseError.failedToParse := by
  unfold JSONSchemaParser.parse
  rw [JSONSchemaParser._parse.eq_def]
  rw [show checkKeywords [] (AllowedProperties.serialize exampleNode) =
    .error ParseError.failedToParse from rfl]

/-- C2 (amended).  An AllowedProperties node serializes to the
canonical object; the schema compiler rejects that serialized form with
FailedToParse (its keyword set holds only the thirteen schema
keywords), while the external match-expression re-parser — modelled
from the spec — parses it back to a node equivalent to the original (in
both operand orders). -/
theorem serializeRoundTrip (n : AllowedProperties) (h : n.wfB = true) :
    JSONSchemaParser.parse n.serialize = .error ParseError.failedToParse ∧
    ∃ m, reparseAllowedProperties n.serialize = some m ∧
      m.equivalent n = some true ∧ n.equivalent m = some true := by
  have hsplit := h
  simp only [AllowedProperties.wfB, Bool.and_eq_true] at hsplit
  obtain ⟨hpat, hoth⟩ := hsplit
  constructor
  · unfold JSONSchemaParser.parse
    rw [JSONSchemaParser._parse.eq_def]
    rw [show checkKeywords [] n.serialize = .error ParseError.failedToParse from rfl]
  · cases n with
    | mk props pats oth bo phn =>
      cases oth with
      | none =>
        refine ⟨⟨props, pats.map fun e =>
            ({ regex := e.regex, placeholder := e.filter.placeholderOf,
               filter := e.filter } : PatternSchema), none, bo, phn⟩, ?_, ?_, ?_⟩
        · simp only [AllowedProperties.serialize, reparseAllowedProperties]
          rw [decodeStrList_map, decodePatternList_map _ hpat]
        · exact equivalent_some_true_of _ _ (setEq_self _) rfl
            (isPermutationBy_of_relPerm (forall2_patternEquiv_map pats) (List.Perm.refl _))
            (Or.inl ⟨rfl, rfl, rfl⟩)
        · exact equivalent_some_true_of _ _ (setEq_self _) rfl
            (isPermutationBy_of_relPerm (forall2_patternEquiv_map_rev pats) (List.Perm.refl _))
            (Or.inl ⟨rfl, rfl, rfl⟩)
      | some x =>
        obtain ⟨ph, f⟩ := x
        simp only [Bool.and_eq_true, beq_iff_eq] at hoth
        obtain ⟨hwf, hple⟩ := hoth
        refine ⟨⟨props, pats.map fun e =>
            ({ regex := e.regex, placeholder := e.filter.placeholderOf,
               filter := e.filter } : PatternSchema), some (ph, f), true, phn⟩, ?_, ?_, ?_⟩
        · simp only [AllowedProperties.serialize, reparseAllowedProperties]
          rw [decodeStrList_map, decodePatternList_map _ hpat]
          cases f with
          | typeCheck p spec =>
            have hs : decodeAlias spec.aliasName = some spec := by
              apply decodeAlias_aliasName
              intro ha
              simp only [SubExpr.wfB] at hwf
              rw [ha] at hwf
              simpa using hwf
            simp [SubExpr.serialize, decodeSub, hs, SubExpr.placeholderOf]
            exact hple
          | alwaysT =>
            simp [SubExpr.serialize, decodeSub, SubExpr.placeholderOf]
            exact hple
          | alwaysF =>
            simp [SubExpr.serialize, decodeSub, SubExpr.placeholderOf]
            exact hple
        · exact equivalent_some_true_of _ _ (setEq_self _) rfl
            (isPermutationBy_of_relPerm (forall2_patternEquiv_map pats) (List.Perm.refl _))
            (Or.inr ⟨ph, f, rfl, rfl⟩)
        · exact equivalent_some_true_of _ _ (setEq_self _) rfl
            (isPermutationBy_of_relPerm (forall2_patternEquiv_map_rev pats) (List.Perm.refl _))
            (Or.inr ⟨ph, f, rfl, rfl⟩)

/-- C2 witness: the test node round-trips through the modelled
re-parser, and the schema compiler rejects its serialization. -/
theorem serializeRoundTripWitness :
    JSONSchemaParser.parse exampleNode.serialize = .error ParseError.failedToParse ∧
    ∃ m, reparseAllowedProperties exampleNode.serialize = some m ∧
      m.equivalent exampleNode = some true ∧ exampleNode.equivalent m = some true :=
  serializeRoundTrip exampleNode (by decide)

end Mongo
